import Mathlib

set_option synthInstance.maxSize 512

/-!
Verification development for the ACV_utilities repository, file
src/nifti_series.py. The Python source is shallowly embedded below:
pure string and list manipulations become Lean functions, the mutable
dictionaries of the Patient class become explicit dictionary values that
are threaded through the functions, and Python exceptions become an
explicit error type carried by Except. Logging (the logs and warnings
text files) is an external sink with no influence on control flow except
in one place, noted below, where evaluating the warning message itself
raises a NameError.
-/

/-- Python str.lower, restricted to the ASCII range exactly like
Char.toLower. -/
def lowerStr (s : String) : String := ⟨s.data.map Char.toLower⟩

/-- Helper for pyIn: does the first character list start the second one. -/
def chPre : List Char → List Char → Bool
  | [], _ => true
  | _ :: _, [] => false
  | a :: as, b :: bs => a == b && chPre as bs

/-- Helper for pyIn: does the needle occur contiguously in the haystack. -/
def chSub (needle : List Char) : List Char → Bool
  | [] => needle.isEmpty
  | b :: bs => chPre needle (b :: bs) || chSub needle bs

/-- The Python substring test, written needle in haystack in the source. -/
def pyIn (needle hay : String) : Bool := chSub needle.data hay.data

/-- Lookup in an association list, the read side of a Python dict. -/
def lookupKey {κ α : Type} [DecidableEq κ] (k : κ) : List (κ × α) → Option α
  | [] => none
  | (k2, v) :: t => if k2 = k then some v else lookupKey k t

/-- Update of an association list, the write side of a Python dict: the
first binding of the key is replaced in place, a missing key is appended,
matching insertion-ordered dict semantics. -/
def setKey {κ α : Type} [DecidableEq κ] : List (κ × α) → κ → α → List (κ × α)
  | [], k, v => [(k, v)]
  | (k2, v2) :: t, k, v => if k2 = k then (k, v) :: t else (k2, v2) :: setKey t k v

/-- Embeds Patient method _check_exception_words: True unless the file name
contains one of the exception words as a substring (the log line written on
exclusion is an external sink and is dropped). -/
def checkExceptionWords (fname : String) (exc : Option (List String)) : Bool :=
  match exc with
  | none => true
  | some ws => ws.all (fun w => !(pyIn w fname))

/-- Exception filtering over a directory listing, as _select_files applies
_check_exception_words to each candidate name. -/
def filterExceptions (files : List String) (exc : Option (List String)) : List String :=
  files.filter (fun f => checkExceptionWords f exc)

/-- The exact-match candidates of _select_files: names whose lowercase form
equals lowercase series_desc concatenated with the extension, that survive
exception filtering. -/
def exactCands (desc ext : String) (exc : Option (List String)) (listing : List String) :
    List String :=
  listing.filter (fun f => (lowerStr f == lowerStr desc ++ ext) && checkExceptionWords f exc)

/-- The permissive candidates of _select_files: names containing the
extension as a substring, that survive exception filtering. -/
def permCands (ext : String) (exc : Option (List String)) (listing : List String) :
    List String :=
  listing.filter (fun f => pyIn ext f && checkExceptionWords f exc)

/-- Embeds Patient method _select_files. The listing argument is the
os.listdir of the folder; returned names are joined onto the folder path.
The two ifs mirror the source exactly, including the second condition
not full_match and try_full_match == False or try_full_match and
len(result) == 0, which lets the permissive rule run even under full_match
when try_full_match is also set and no exact match exists. -/
def selectFiles (desc folder : String) (listing : List String) (ext : String)
    (exc : Option (List String)) (full_match try_full_match : Bool) : List String :=
  let result :=
    if full_match || try_full_match then
      (exactCands desc ext exc listing).map (fun f => folder ++ "/" ++ f)
    else []
  if (!full_match && (try_full_match == false)) || (try_full_match && (result.length == 0)) then
    (permCands ext exc listing).map (fun f => folder ++ "/" ++ f)
  else result

/-- Embeds the Series class: series_type and path as stored by
_create_series, where path is a single file path string. get_type and
get_path are the field projections. -/
structure SeriesO where
  series_type : String
  path : String
deriving DecidableEq, Repr

/-- Embeds the Mask class: series_type, a list of paths (as passed by
_fetch_single_mask, which hands the whole per-doctor path list to one
Mask), and the doctor attribution. -/
structure MaskO where
  series_type : String
  path : List String
  doctor : String
deriving DecidableEq, Repr

/-- Embeds _create_series: None when the path is falsy (empty string);
the series_desc is a Lean String and so never the Python None. -/
def createSeries (desc : String) (path : String) : Option SeriesO :=
  if path = "" then none else some ⟨desc, path⟩

/-- Embeds _create_mask: None when the path list is falsy (empty). -/
def createMask (desc : String) (paths : List String) (doctor : String) : Option MaskO :=
  if paths = [] then none else some ⟨desc, paths, doctor⟩

/-- One entry inside a patient folder: its name, whether os.path.isdir
holds for it, and, when it is a directory, the names os.listdir yields
inside it. Directory listings are assumed to carry distinct names, as a
real filesystem guarantees. -/
structure FsEntry where
  ename : String
  isDir : Bool
  files : List String
deriving DecidableEq, Repr

/-- One folder directly under the patient root, with its listing. -/
structure FsFolder where
  fname : String
  entries : List FsEntry
deriving DecidableEq, Repr

/-- The patient directory: the folders os.listdir finds under the
patient path (modelled as directories, the only case the claims touch). -/
abbrev PatientFS := List FsFolder

/-- The Python exceptions the embedded code can raise. -/
inductive PyErr where
  | indexOutOfRange
  | nameError
  | invalidCountType
  | stopIteration
  | keyError
  | attributeError
deriving DecidableEq, Repr

/-- Embeds _fetch_single_series: collect the folders whose lowercase name
contains the lowercase series_desc, run _select_files in each, concatenate
the path lists, and wrap each resulting path in a Series via
_create_series. Log and warning writes are dropped. -/
def fetchSingleSeries (p : String) (fs : PatientFS) (desc ext : String)
    (exc : Option (List String)) (fm tfm : Bool) : List (Option SeriesO) :=
  let folder_list := fs.filter (fun fo => pyIn (lowerStr desc) (lowerStr fo.fname))
  let file_list := folder_list.foldl
    (fun acc fo => acc ++ selectFiles desc (p ++ "/" ++ fo.fname)
      (fo.entries.map (fun e => e.ename)) ext exc fm tfm) []
  file_list.map (fun q => createSeries desc q)

/-- The per-kind mask index of one patient: doctor name to the list the
source stores under masks_dict[doctor]. -/
abbrev MaskIdx := List (String × List (Option MaskO))

/-- Embeds _fetch_single_mask. The folders whose lowercase name contains
the word masks are collected; with more than one, the source evaluates a
warning f-string that references the undefined name mask_folder_list (the
defined variable is masks_folder_list) and so raises NameError; with none,
indexing masks_folder_list[0] raises IndexError. Otherwise the immediate
subdirectories of the single masks folder are the doctors, _select_files
runs in each doctor folder, and the loop over file_dict.items() appends
exactly one _create_mask result per doctor, handing it the whole path
list. The final copy.deepcopy is the identity on these immutable values. -/
def fetchSingleMask (p : String) (fs : PatientFS) (desc ext : String)
    (exc : Option (List String)) (fm tfm : Bool) : Except PyErr MaskIdx :=
  let masks_folder_list := fs.filter (fun fo => pyIn "masks" (lowerStr fo.fname))
  if 1 < masks_folder_list.length then .error .nameError
  else
    match masks_folder_list with
    | [] => .error .indexOutOfRange
    | mf :: _ =>
      let doctors_list := mf.entries.filter (fun e => e.isDir)
      let file_dict := doctors_list.map (fun d =>
        (d.ename, selectFiles desc (p ++ "/" ++ mf.fname ++ "/" ++ d.ename) d.files ext exc fm tfm))
      .ok (file_dict.map (fun dv => (dv.1, [createMask desc dv.2 dv.1])))

/-- The shared series index self.images: a class attribute of Patient, so
one dictionary shared by every Patient instance. -/
abbrev ImagesDict := List (String × List (Option SeriesO))

/-- The shared mask index self.masks, likewise a class attribute. -/
abbrev MasksDict := List (String × MaskIdx)

/-- Embeds fetch_series: for each requested kind, store the
_fetch_single_series result under that kind in the images dict; the
method returns self.images itself (no copy). -/
def fetchSeries (p : String) (fs : PatientFS) (kinds : List String) (ext : String)
    (exc : Option (List String)) (fm tfm : Bool) (images : ImagesDict) : ImagesDict :=
  match kinds with
  | [] => images
  | k :: t =>
    fetchSeries p fs t ext exc fm tfm (setKey images k (fetchSingleSeries p fs k ext exc fm tfm))

/-- Embeds fetch_masks: for each requested kind, store the
_fetch_single_mask result under that kind; an exception raised for any
kind propagates out of the loop. The method returns a deepcopy of
self.masks; in this value embedding the copy matters only in the heap
model below. -/
def fetchMasks (p : String) (fs : PatientFS) (kinds : List String) (ext : String)
    (exc : Option (List String)) (fm tfm : Bool) (m : MasksDict) : Except PyErr MasksDict :=
  match kinds with
  | [] => .ok m
  | k :: t =>
    match fetchSingleMask p fs k ext exc fm tfm with
    | .error e => .error e
    | .ok v => fetchMasks p fs t ext exc fm tfm (setKey m k v)

/-- A matching configuration as passed through **kwargs. -/
structure Cfg where
  full_match : Bool := false
  try_full_match : Bool := false
deriving DecidableEq, Repr

/-- The module-level default kind list series_to_fetch. -/
def series_to_fetch : List String := ["adc", "dwi"]

/-- The module-level mask_config. -/
def maskCfgDef : Cfg := { full_match := true }

/-- The module-level series_config. -/
def seriesCfgDef : Cfg := { try_full_match := true }

/-- The mutable state of the shared class-level dictionaries, together
with a ghost counter of how many discovery passes (fetch_all calls) have
run; the counter instruments the embedding and changes no behavior. -/
structure PState where
  images : ImagesDict
  masks : MasksDict
  runs : Nat
deriving DecidableEq, Repr

/-- Embeds fetch_all: masks first, then series, with the default
.nii.gz extension and no exception words, as the aggregate queries call
it. A mask exception aborts before the series fetch. -/
def fetchAll (p : String) (fs : PatientFS) (kinds : List String) (mcfg scfg : Cfg)
    (st : PState) : Except PyErr PState :=
  match fetchMasks p fs kinds ".nii.gz" none mcfg.full_match mcfg.try_full_match st.masks with
  | .error e => .error e
  | .ok m =>
    .ok ⟨fetchSeries p fs kinds ".nii.gz" none scfg.full_match scfg.try_full_match st.images,
      m, st.runs + 1⟩

/-- Embeds count[key] += 1: KeyError when the key is absent. -/
def incKey (m : List (String × Nat)) (k : String) : Except PyErr (List (String × Nat)) :=
  match lookupKey k m with
  | none => .error .keyError
  | some n => .ok (setKey m k (n + 1))

/-- The triple loop of count_masks_per over self.masks: the doctor_dict is
never the Python None in this embedding (fetch_masks always stores a
dict), entries that are None are skipped, and the surviving mask bumps the
bucket selected by count_type. -/
def cmLoop (ct : String) (masks : MasksDict) (count0 : List (String × Nat)) :
    Except PyErr (List (String × Nat)) :=
  masks.foldlM (fun acc kv =>
    kv.2.foldlM (fun ac dkv =>
      dkv.2.foldlM (fun a om =>
        match om with
        | none => .ok a
        | some mk =>
          if lowerStr ct == "series_type" then incKey a mk.series_type
          else if lowerStr ct == "doctor" then incKey a mk.doctor
          else .ok a) ac) acc) count0

/-- Embeds count_masks_per: the method first runs
self.fetch_all(series_to_fetch, mask_config, series_config)
unconditionally, then builds the zero-initialized bucket map (keys of
self.masks for series_type, keys of the first mask value for doctor,
Exception otherwise), then runs the counting loop. -/
def countMasksPer (p : String) (fs : PatientFS) (ct : String) (st : PState) :
    Except PyErr (PState × List (String × Nat)) :=
  match fetchAll p fs series_to_fetch maskCfgDef seriesCfgDef st with
  | .error e => .error e
  | .ok st1 =>
    if lowerStr ct == "series_type" then
      match cmLoop ct st1.masks (st1.masks.map (fun kv => (kv.1, 0))) with
      | .error e => .error e
      | .ok c => .ok (st1, c)
    else if lowerStr ct == "doctor" then
      match st1.masks with
      | [] => .error .stopIteration
      | (_, dd) :: _ =>
        match cmLoop ct st1.masks (dd.map (fun kv => (kv.1, 0))) with
        | .error e => .error e
        | .ok c => .ok (st1, c)
    else .error .invalidCountType

/-- The loop of count_series_per_type over self.images: the guard
series_list is not None or len(series_list) > 1 is always true here
(stored values are lists), None entries are skipped. -/
def csLoop (images : ImagesDict) (count0 : List (String × Nat)) :
    Except PyErr (List (String × Nat)) :=
  images.foldlM (fun acc kv =>
    kv.2.foldlM (fun ac om =>
      match om with
      | none => .ok ac
      | some s => incKey ac s.series_type) acc) count0

/-- Embeds count_series_per_type: unconditional fetch_all with the default
configuration, then count per kind over self.images. -/
def countSeriesPerType (p : String) (fs : PatientFS) (st : PState) :
    Except PyErr (PState × List (String × Nat)) :=
  match fetchAll p fs series_to_fetch maskCfgDef seriesCfgDef st with
  | .error e => .error e
  | .ok st1 =>
    match csLoop st1.images (st1.images.map (fun kv => (kv.1, 0))) with
    | .error e => .error e
    | .ok c => .ok (st1, c)

/-- The inner loop of get_series_types: series.get_type() on a None entry
raises AttributeError. -/
def seriesTypesOf : List (Option SeriesO) → Except PyErr (List String)
  | [] => .ok []
  | none :: _ => .error .attributeError
  | some s :: t =>
    match seriesTypesOf t with
    | .error e => .error e
    | .ok r => .ok (s.series_type :: r)

/-- Helper collecting the series types in index order. -/
def gstAux : ImagesDict → Except PyErr (List String)
  | [] => .ok []
  | (_, sl) :: t =>
    match seriesTypesOf sl with
    | .error e => .error e
    | .ok r =>
      match gstAux t with
      | .error e => .error e
      | .ok r2 => .ok (r ++ r2)

/-- Python set() keeping first occurrences, via an accumulator of names
already seen. -/
def dedupAux : List String → List String → List String
  | [], _ => []
  | a :: t, seen => if seen.contains a then dedupAux t seen else a :: dedupAux t (a :: seen)

/-- Embeds get_series_types: reads self.images directly, with no implicit
fetch_all, and returns the set of types of the stored Series objects. -/
def getSeriesTypes (images : ImagesDict) : Except PyErr (List String) :=
  match gstAux images with
  | .error e => .error e
  | .ok l => .ok (dedupAux l [])

/-- A tiny heap of locations to model Python object identity: reading,
overwriting in place, and allocating a fresh object (as copy.deepcopy
does). -/
structure RefHeap (α : Type) where
  store : List (Nat × α)
  nxt : Nat
deriving DecidableEq, Repr

/-- Dereference a location. -/
def RefHeap.read {α : Type} (h : RefHeap α) (l : Nat) : Option α := lookupKey l h.store

/-- Mutate the object at a location in place. -/
def RefHeap.write {α : Type} (h : RefHeap α) (l : Nat) (v : α) : RefHeap α :=
  ⟨setKey h.store l v, h.nxt⟩

/-- Allocate a fresh object, returning the heap and the new location. -/
def RefHeap.alloc {α : Type} (h : RefHeap α) (v : α) : RefHeap α × Nat :=
  (⟨h.store ++ [(h.nxt, v)], h.nxt + 1⟩, h.nxt)

/-- A Patient object as two locations into the class-level dictionaries
self.images and self.masks. -/
structure PatientObj where
  imagesLoc : Nat
  masksLoc : Nat
deriving DecidableEq, Repr

/-- Embeds fetch_masks at the object level: the dict behind self.masks is
mutated in place key by key, and the method returns copy.deepcopy of
self.masks, a freshly allocated object. -/
def fetchMasksM (p : String) (fs : PatientFS) (kinds : List String) (ext : String)
    (exc : Option (List String)) (fm tfm : Bool) (po : PatientObj) (hm : RefHeap MasksDict) :
    Except PyErr (RefHeap MasksDict × Nat) :=
  match hm.read po.masksLoc with
  | none => .error .attributeError
  | some cur =>
    match fetchMasks p fs kinds ext exc fm tfm cur with
    | .error e => .error e
    | .ok newM =>
      let hm1 := hm.write po.masksLoc newM
      let hr := hm1.alloc newM
      .ok (hr.1, hr.2)

/-- Embeds fetch_series at the object level: the dict behind self.images
is mutated in place and the method returns self.images itself, the very
same location. -/
def fetchSeriesM (p : String) (fs : PatientFS) (kinds : List String) (ext : String)
    (exc : Option (List String)) (fm tfm : Bool) (po : PatientObj) (hi : RefHeap ImagesDict) :
    Except PyErr (RefHeap ImagesDict × Nat) :=
  match hi.read po.imagesLoc with
  | none => .error .attributeError
  | some cur =>
    .ok (hi.write po.imagesLoc (fetchSeries p fs kinds ext exc fm tfm cur), po.imagesLoc)

/-- Whether an Except value is a success. -/
def exceptOkB {ε α : Type} : Except ε α → Bool
  | .ok _ => true
  | .error _ => false

/-- A success value with a default for the error case. -/
def exceptGetD {ε α : Type} (r : Except ε α) (d : α) : α :=
  match r with
  | .ok a => a
  | .error _ => d

/-- Empty starting state: fresh class dictionaries, no discovery run. -/
def ST0 : PState := ⟨[], [], 0⟩

/-- A well-formed patient directory: one ADC series folder and one MASKS
folder with a single doctor subfolder. -/
def CFS : PatientFS :=
  [⟨"ADC", [⟨"adc.nii.gz", false, []⟩]⟩, ⟨"MASKS", [⟨"drA", true, ["adc.nii.gz"]⟩]⟩]

/-- The masks folder of CFS. -/
def MFC : FsFolder := ⟨"MASKS", [⟨"drA", true, ["adc.nii.gz"]⟩]⟩

/-- A patient directory with a series folder but no masks folder at all. -/
def FS4 : PatientFS := [⟨"ADC", [⟨"adc.nii.gz", false, []⟩]⟩]

/-- A masks folder that could be added to FS4. -/
def MF4 : FsFolder := ⟨"MASKS", []⟩

/-- A patient directory with two folders whose names contain masks. -/
def FS5 : PatientFS := [⟨"MASKS_A", []⟩, ⟨"masksB", []⟩]

/-- A patient directory whose single doctor subfolder holds two files for
the same kind. -/
def FS6 : PatientFS := [⟨"MASKS", [⟨"drA", true, ["a_1.nii.gz", "a_2.nii.gz"]⟩]⟩]

/-- The masks folder of FS6. -/
def MF6 : FsFolder := ⟨"MASKS", [⟨"drA", true, ["a_1.nii.gz", "a_2.nii.gz"]⟩]⟩

/-- A Patient object whose images and masks locations are slot 0 of their
heaps. -/
def PO : PatientObj := ⟨0, 0⟩

/-- A one-slot masks heap holding the empty class dictionary. -/
def HM0 : RefHeap MasksDict := ⟨[(0, [])], 1⟩

/-- A one-slot images heap holding the empty class dictionary. -/
def HI0 : RefHeap ImagesDict := ⟨[(0, [])], 1⟩

instance {ε α : Type} [DecidableEq ε] [DecidableEq α] : DecidableEq (Except ε α) := fun a b =>
  match a, b with
  | .ok x, .ok y =>
    if h : x = y then .isTrue (by rw [h]) else .isFalse (fun hh => h (by cases hh; rfl))
  | .ok _, .error _ => .isFalse (fun hh => by cases hh)
  | .error _, .ok _ => .isFalse (fun hh => by cases hh)
  | .error x, .error y =>
    if h : x = y then .isTrue (by rw [h]) else .isFalse (fun hh => h (by cases hh; rfl))

theorem lookupKey_setKey_self {κ α : Type} [DecidableEq κ] (m : List (κ × α)) (k : κ) (v : α) :
    lookupKey k (setKey m k v) = some v := by
  induction m with
  | nil => simp [setKey, lookupKey]
  | cons kv t ih =>
    by_cases h : kv.1 = k
    · simp [setKey, h, lookupKey]
    · simp [setKey, h, lookupKey, ih]

theorem lookupKey_setKey_ne {κ α : Type} [DecidableEq κ] (m : List (κ × α)) (k k2 : κ) (v : α)
    (h : k2 ≠ k) : lookupKey k (setKey m k2 v) = lookupKey k m := by
  induction m with
  | nil => simp [setKey, lookupKey, h]
  | cons kv t ih =>
    by_cases h2 : kv.1 = k2
    · simp [setKey, h2, lookupKey, h]
    · by_cases h3 : kv.1 = k <;> simp [setKey, h2, lookupKey, h3, ih, Ne.symm h]

theorem lookupKey_append_left {κ α : Type} [DecidableEq κ] (s t : List (κ × α)) (k : κ) (v : α)
    (h : lookupKey k s = some v) : lookupKey k (s ++ t) = some v := by
  induction s with
  | nil => simp [lookupKey] at h
  | cons kv s2 ih =>
    by_cases h2 : kv.1 = k
    · simpa [lookupKey, h2] using h
    · simp [lookupKey, h2] at h ⊢
      exact ih h

/-- C1: refuted on the code. With full_match set, the claim says selection
returns exactly the exact matches regardless of try_full_match; but at
this input, with full_match and try_full_match both set and no exact match
present, _select_files falls back to the permissive extension-substring
rule (second conjunct: the exact-match candidate set is empty, yet the
call returns the non-matching file). This contradicts the docstring of
_select_files, which states that when full_match is specified
try_full_match is not used. -/
theorem c1_fullmatch_fallback :
    selectFiles "a" "F" ["b.nii.gz"] ".nii.gz" none true true = ["F/b.nii.gz"]
  ∧ exactCands "a" ".nii.gz" none ["b.nii.gz"] = [] := by
  exact ⟨rfl, rfl⟩

/-- C2: with try_full_match set and full_match unset, _select_files
returns the exception-filtered exact matches when at least one survives,
and otherwise every exception-filtered file containing the extension as a
substring. -/
theorem c2_try_full_match (desc folder ext : String) (listing : List String)
    (exc : Option (List String)) :
    selectFiles desc folder listing ext exc false true =
      if exactCands desc ext exc listing = [] then
        (permCands ext exc listing).map (fun f => folder ++ "/" ++ f)
      else (exactCands desc ext exc listing).map (fun f => folder ++ "/" ++ f) := by
  cases h : exactCands desc ext exc listing with
  | nil => simp [selectFiles, h]
  | cons a t => simp [selectFiles, h]

theorem fetchAll_runs (p : String) (fs : PatientFS) (kinds : List String) (mcfg scfg : Cfg)
    (st st1 : PState) (h : fetchAll p fs kinds mcfg scfg st = .ok st1) :
    st1.runs = st.runs + 1 := by
  unfold fetchAll at h
  cases hm : fetchMasks p fs kinds ".nii.gz" none mcfg.full_match mcfg.try_full_match st.masks with
  | error e => rw [hm] at h; cases h
  | ok m =>
    rw [hm] at h
    cases h
    rfl

/-- C3 (amended): every aggregate query re-runs discovery with the default
configuration unconditionally, populated or not: any successful call to
count_series_per_type or count_masks_per leaves a state whose discovery
counter is the old counter plus one. -/
theorem c3_always_refetch (p : String) (fs : PatientFS) (st : PState) :
    ((countSeriesPerType p fs st).map (fun r => r.1.runs) = .ok (st.runs + 1)
      ∨ exceptOkB (countSeriesPerType p fs st) = false)
  ∧ ∀ ct, ((countMasksPer p fs ct st).map (fun r => r.1.runs) = .ok (st.runs + 1)
      ∨ exceptOkB (countMasksPer p fs ct st) = false) := by
  constructor
  · unfold countSeriesPerType
    cases hA : fetchAll p fs series_to_fetch maskCfgDef seriesCfgDef st with
    | error e => right; rfl
    | ok st1 =>
      cases hL : csLoop st1.images (st1.images.map fun kv => (kv.1, 0)) with
      | error e => right; simp [hL, exceptOkB]
      | ok c =>
        left
        simp [hL, Except.map]
        exact fetchAll_runs p fs series_to_fetch maskCfgDef seriesCfgDef st st1 hA
  · intro ct
    unfold countMasksPer
    cases hA : fetchAll p fs series_to_fetch maskCfgDef seriesCfgDef st with
    | error e => right; rfl
    | ok st1 =>
      have hruns := fetchAll_runs p fs series_to_fetch maskCfgDef seriesCfgDef st st1 hA
      by_cases h1 : (lowerStr ct == "series_type") = true
      · simp only [h1, if_true]
        cases hL : cmLoop ct st1.masks (st1.masks.map fun kv => (kv.1, 0)) with
        | error e => right; simp [exceptOkB]
        | ok c => left; simp [Except.map, hruns]
      · simp only [h1]
        by_cases h2 : (lowerStr ct == "doctor") = true
        · simp only [h2, if_true, if_false]
          cases st1.masks with
          | nil => right; rfl
          | cons kv t =>
            cases hL : cmLoop ct (kv :: t) (kv.2.map fun dv => (dv.1, 0)) with
            | error e => right; simp [hL, exceptOkB]
            | ok c => left; simp [hL, Except.map, hruns]
        · simp [h1, h2, exceptOkB]

/-- C3 counterexample to the claim as written: on a fully well-formed
patient directory, a first aggregate query populates the indices (two
kinds stored, one discovery run), yet a second aggregate query runs
discovery again (two runs) instead of reusing the memoized result. -/
theorem c3_rediscovery_cx :
    ((countSeriesPerType "P" CFS ST0).map (fun r => (r.1.runs, r.1.images.length))
      = .ok (1, 2))
  ∧ (((countSeriesPerType "P" CFS ST0).bind (fun r => countSeriesPerType "P" CFS r.1)).map
      (fun r => r.1.runs) = .ok 2) := by
  exact ⟨rfl, rfl⟩

/-- C4: in a patient directory with no folder whose name contains masks,
mask discovery for any kind fails with the index-out-of-range fault from
masks_folder_list[0], while series discovery is unaffected: its result on
the same directory is identical to its result when a masks folder is
present. -/
theorem c4_missing_masks (p : String) (fs : PatientFS) (desc ext : String)
    (exc : Option (List String)) (fm tfm : Bool) (mf : FsFolder)
    (hno : fs.filter (fun fo => pyIn "masks" (lowerStr fo.fname)) = [])
    (hmf : pyIn "masks" (lowerStr mf.fname) = true)
    (hdesc : pyIn (lowerStr desc) (lowerStr mf.fname) = false) :
    fetchSingleMask p fs desc ext exc fm tfm = .error .indexOutOfRange
  ∧ fetchSingleSeries p (fs ++ [mf]) desc ext exc fm tfm
      = fetchSingleSeries p fs desc ext exc fm tfm := by
  constructor
  · unfold fetchSingleMask
    rw [hno]
    rfl
  · unfold fetchSingleSeries
    rw [List.filter_append]
    simp [hdesc]

/-- C4 witness: concrete directory FS4 has no masks folder; mask discovery
faults with the index error there. -/
theorem c4_missing_masks_w :
    fetchSingleMask "P" FS4 "adc" ".nii.gz" none true false = .error .indexOutOfRange :=
  (c4_missing_masks "P" FS4 "adc" ".nii.gz" none true false MF4
    (by decide) (by decide) (by decide)).1

/-- C5: refuted on the code. With two folders whose names contain masks,
_fetch_single_mask evaluates the warning f-string, which references the
undefined name mask_folder_list (the defined variable is
masks_folder_list), so the call raises NameError and aborts instead of
logging a warning and proceeding with the first folder. -/
theorem c5_multiple_masks_nameerror :
    fetchSingleMask "P" FS5 "adc" ".nii.gz" none true false = .error .nameError := by
  exact rfl

theorem fetchSingleMask_unique (p : String) (fs : PatientFS) (desc ext : String)
    (exc : Option (List String)) (fm tfm : Bool) (mf : FsFolder)
    (h : fs.filter (fun fo => pyIn "masks" (lowerStr fo.fname)) = [mf]) :
    fetchSingleMask p fs desc ext exc fm tfm =
      .ok ((mf.entries.filter (fun e => e.isDir)).map (fun d =>
        (d.ename, [createMask desc
          (selectFiles desc (p ++ "/" ++ mf.fname ++ "/" ++ d.ename) d.files ext exc fm tfm)
          d.ename]))) := by
  unfold fetchSingleMask
  rw [h]
  simp [List.map_map, Function.comp]

/-- C6 counterexample to the claim as written: in FS6 the doctor drA has
two resolved paths for kind a under the default matching mode, yet the
mask index stores a single MaskCatalogEntry for drA (wrapping both paths),
not one entry per resolved path. -/
theorem c6_entry_count_cx :
    ((fetchSingleMask "P" FS6 "a" ".nii.gz" none false false).map
      (fun md => (lookupKey "drA" md).map List.length) = .ok (some 1))
  ∧ (selectFiles "a" "P/MASKS/drA" ["a_1.nii.gz", "a_2.nii.gz"] ".nii.gz" none false false).length
      = 2 := by
  exact ⟨rfl, rfl⟩

/-- C6 (amended): mask discovery builds exactly one MaskCatalogEntry per
doctor subfolder, wrapping the whole list of paths the FileMatcher
resolved there (or a None placeholder when none resolved): the sequence
stored for each doctor always has length one. -/
theorem c6_one_entry_per_doctor (p : String) (fs : PatientFS) (desc ext : String)
    (exc : Option (List String)) (fm tfm : Bool) (mf : FsFolder)
    (h : fs.filter (fun fo => pyIn "masks" (lowerStr fo.fname)) = [mf]) :
    ∃ md, fetchSingleMask p fs desc ext exc fm tfm = .ok md
      ∧ md.length = (mf.entries.filter (fun e => e.isDir)).length
      ∧ ∀ kv ∈ md, kv.2.length = 1 := by
  refine ⟨_, fetchSingleMask_unique p fs desc ext exc fm tfm mf h, by simp, ?_⟩
  intro kv hkv
  simp only [List.mem_map] at hkv
  obtain ⟨d, _, hd⟩ := hkv
  rw [← hd]
  rfl

/-- C6 witness: the amended statement evaluated on the concrete directory
FS6 with its single masks folder MF6. -/
theorem c6_one_entry_per_doctor_w :
    ∃ md, fetchSingleMask "P" FS6 "a" ".nii.gz" none false false = .ok md
      ∧ md.length = (MF6.entries.filter (fun e => e.isDir)).length
      ∧ ∀ kv ∈ md, kv.2.length = 1 :=
  c6_one_entry_per_doctor "P" FS6 "a" ".nii.gz" none false false MF6 (by decide)

theorem fetchMasks_ok (p : String) (fs : PatientFS) (kinds : List String) (ext : String)
    (exc : Option (List String)) (fm tfm : Bool) (mf : FsFolder)
    (h : fs.filter (fun fo => pyIn "masks" (lowerStr fo.fname)) = [mf]) :
    ∀ m, ∃ m2, fetchMasks p fs kinds ext exc fm tfm m = .ok m2 := by
  induction kinds with
  | nil => exact fun m => ⟨m, rfl⟩
  | cons k t ih =>
    intro m
    simp only [fetchMasks, fetchSingleMask_unique p fs k ext exc fm tfm mf h]
    exact ih _

theorem fetchAll_ok (p : String) (fs : PatientFS) (kinds : List String) (mcfg scfg : Cfg)
    (st : PState) (mf : FsFolder)
    (h : fs.filter (fun fo => pyIn "masks" (lowerStr fo.fname)) = [mf]) :
    ∃ m, fetchAll p fs kinds mcfg scfg st =
      .ok ⟨fetchSeries p fs kinds ".nii.gz" none scfg.full_match scfg.try_full_match st.images,
        m, st.runs + 1⟩ := by
  obtain ⟨m2, hm⟩ :=
    fetchMasks_ok p fs kinds ".nii.gz" none mcfg.full_match mcfg.try_full_match mf h st.masks
  exact ⟨m2, by unfold fetchAll; rw [hm]⟩

/-- C7 counterexample to the claim as written: on a patient directory with
no masks folder, count_masks_per with an invalid dimension fails with the
index-out-of-range fault of the implicit discovery pass, not with the
invalid-count-type configuration error. -/
theorem c7_invalid_dim_cx :
    countMasksPer "P" FS4 "invalid" ST0 = .error .indexOutOfRange
  ∧ countMasksPer "P" FS4 "invalid" ST0 ≠ .error .invalidCountType := by
  constructor
  · rfl
  · decide

/-- C7 (amended): whenever the implicit default-configuration discovery
succeeds (the patient directory has exactly one masks folder), calling
count_masks_per with any dimension other than series_type and doctor
(case-insensitively) fails with the invalid-count-type configuration
error. -/
theorem c7_invalid_dim (p : String) (fs : PatientFS) (ct : String) (st : PState) (mf : FsFolder)
    (h : fs.filter (fun fo => pyIn "masks" (lowerStr fo.fname)) = [mf])
    (h1 : (lowerStr ct == "series_type") = false)
    (h2 : (lowerStr ct == "doctor") = false) :
    countMasksPer p fs ct st = .error .invalidCountType := by
  obtain ⟨m, hA⟩ := fetchAll_ok p fs series_to_fetch maskCfgDef seriesCfgDef st mf h
  unfold countMasksPer
  rw [hA]
  simp [h1, h2]

/-- C7 witness: the amended statement on the concrete well-formed
directory CFS with the invalid dimension string. -/
theorem c7_invalid_dim_w :
    countMasksPer "P" CFS "invalid" ST0 = .error .invalidCountType :=
  c7_invalid_dim "P" CFS "invalid" ST0 MFC (by decide) (by decide) (by decide)

/-- C8: exception filtering is idempotent and order-independent: filtering
with one exception list and then another equals filtering once with the
concatenation, the two concatenation orders agree, and refiltering with
the same list changes nothing. -/
theorem c8_exception_filtering (l e1 e2 : List String) :
    (filterExceptions (filterExceptions l (some e1)) (some e2)
      = filterExceptions l (some (e1 ++ e2)))
  ∧ (filterExceptions l (some (e1 ++ e2)) = filterExceptions l (some (e2 ++ e1)))
  ∧ (filterExceptions (filterExceptions l (some e1)) (some e1)
      = filterExceptions l (some e1)) := by
  have hpt : ∀ (f : String) (a b : List String),
      checkExceptionWords f (some (a ++ b))
        = (checkExceptionWords f (some a) && checkExceptionWords f (some b)) := by
    intro f a b
    simp [checkExceptionWords, List.all_append]
  refine ⟨?_, ?_, ?_⟩
  · induction l with
    | nil => rfl
    | cons a t ih =>
      simp only [filterExceptions, List.filter_cons] at *
      rw [hpt]
      cases h1 : checkExceptionWords a (some e1) <;>
        cases h2 : checkExceptionWords a (some e2) <;>
          simp [h1, h2, List.filter_cons] at * <;> exact ih
  · induction l with
    | nil => rfl
    | cons a t ih =>
      simp only [filterExceptions, List.filter_cons] at *
      rw [hpt, hpt]
      cases h1 : checkExceptionWords a (some e1) <;>
        cases h2 : checkExceptionWords a (some e2) <;>
          simp [h1, h2] <;> exact ih
  · induction l with
    | nil => rfl
    | cons a t ih =>
      simp only [filterExceptions, List.filter_cons] at *
      cases h1 : checkExceptionWords a (some e1)
      · simp [h1, ih]
      · simp [h1, List.filter_cons, ih]

theorem fetchSeries_lookup_not_mem (p : String) (fs : PatientFS) (kinds : List String)
    (ext : String) (exc : Option (List String)) (fm tfm : Bool) (images : ImagesDict)
    (k : String) (h : k ∉ kinds) :
    lookupKey k (fetchSeries p fs kinds ext exc fm tfm images) = lookupKey k images := by
  induction kinds generalizing images with
  | nil => rfl
  | cons k0 t ih =>
    simp only [List.mem_cons, not_or] at h
    simp only [fetchSeries]
    rw [ih _ h.2, lookupKey_setKey_ne _ _ _ _ (Ne.symm h.1)]

/-- C9 counterexample to the claim as written: self.images is a class
attribute of Patient, one dictionary shared by every instance, so after
patient A runs series discovery the series types visible through any
other patient B (get_series_types reads the same shared dictionary,
without fetching) change from the empty set to the set containing adc,
although B itself ran no discovery. -/
theorem c9_cross_patient_leak :
    fetchSeries "A" FS4 ["adc"] ".nii.gz" none false true ([] : ImagesDict) ≠ ([] : ImagesDict)
  ∧ getSeriesTypes (fetchSeries "A" FS4 ["adc"] ".nii.gz" none false true ([] : ImagesDict))
      = .ok ["adc"]
  ∧ getSeriesTypes ([] : ImagesDict) = .ok [] := by
  refine ⟨by decide, rfl, rfl⟩

/-- C9 (amended): the series index is class-level shared state, not owned
per patient: after any one patient runs discovery, the single shared
dictionary read by every patient maps each fetched kind to the
discovering patient folder's results. -/
theorem c9_shared_index (p : String) (fs : PatientFS) (kinds : List String) (ext : String)
    (exc : Option (List String)) (fm tfm : Bool) (images : ImagesDict) (k : String)
    (hk : k ∈ kinds) :
    lookupKey k (fetchSeries p fs kinds ext exc fm tfm images) =
      some (fetchSingleSeries p fs k ext exc fm tfm) := by
  induction kinds generalizing images with
  | nil => cases hk
  | cons k0 t ih =>
    by_cases ht : k ∈ t
    · simp only [fetchSeries]
      exact ih _ ht
    · have hk0 : k = k0 := by
        rcases List.mem_cons.mp hk with h | h
        · exact h
        · exact absurd h ht
      subst hk0
      simp only [fetchSeries]
      rw [fetchSeries_lookup_not_mem _ _ _ _ _ _ _ _ _ ht, lookupKey_setKey_self]

/-- C9 witness: after patient A discovers kind adc over FS4 starting from
the empty shared dictionary, the shared index holds A's result for adc. -/
theorem c9_shared_index_w :
    lookupKey "adc" (fetchSeries "A" FS4 ["adc"] ".nii.gz" none false true ([] : ImagesDict)) =
      some (fetchSingleSeries "A" FS4 "adc" ".nii.gz" none false true) :=
  c9_shared_index "A" FS4 ["adc"] ".nii.gz" none false true [] "adc" (by decide)

/-- C10: fetch_masks returns a deepcopy of the mask index: the returned
object is a fresh location distinct from self.masks, and overwriting the
returned object leaves the internal mask state unchanged; fetch_series
returns self.images itself, so overwriting the returned object is
overwriting the internal series index, which subsequent series queries
read. -/
theorem c10_copy_vs_alias (p : String) (fs : PatientFS) (kinds : List String) (ext : String)
    (exc : Option (List String)) (fm tfm : Bool) (po : PatientObj)
    (hm : RefHeap MasksDict) (hi : RefHeap ImagesDict) (m0 : MasksDict) (i0 : ImagesDict)
    (hv : po.masksLoc < hm.nxt)
    (hrm : hm.read po.masksLoc = some m0)
    (hok : exceptOkB (fetchMasks p fs kinds ext exc fm tfm m0) = true)
    (hri : hi.read po.imagesLoc = some i0) :
    (fetchMasksM p fs kinds ext exc fm tfm po hm =
        .ok (((hm.write po.masksLoc (exceptGetD (fetchMasks p fs kinds ext exc fm tfm m0) [])).alloc
          (exceptGetD (fetchMasks p fs kinds ext exc fm tfm m0) [])).1, hm.nxt)
      ∧ hm.nxt ≠ po.masksLoc
      ∧ ∀ v, ((((hm.write po.masksLoc
            (exceptGetD (fetchMasks p fs kinds ext exc fm tfm m0) [])).alloc
          (exceptGetD (fetchMasks p fs kinds ext exc fm tfm m0) [])).1.write hm.nxt v).read
            po.masksLoc
          = some (exceptGetD (fetchMasks p fs kinds ext exc fm tfm m0) [])))
  ∧ (fetchSeriesM p fs kinds ext exc fm tfm po hi =
        .ok (hi.write po.imagesLoc (fetchSeries p fs kinds ext exc fm tfm i0), po.imagesLoc)
      ∧ ∀ v, ((((hi.write po.imagesLoc (fetchSeries p fs kinds ext exc fm tfm i0)).write
          po.imagesLoc v).read po.imagesLoc = some v))) := by
  have hne : hm.nxt ≠ po.masksLoc := Ne.symm (Nat.ne_of_lt hv)
  cases hM : fetchMasks p fs kinds ext exc fm tfm m0 with
  | error e => rw [hM] at hok; simp [exceptOkB] at hok
  | ok newM =>
    refine ⟨⟨?_, hne, ?_⟩, ⟨?_, ?_⟩⟩
    · simp only [fetchMasksM, hrm, hM, exceptGetD]
      rfl
    · intro v
      simp only [hM, exceptGetD, RefHeap.write, RefHeap.alloc, RefHeap.read]
      rw [lookupKey_setKey_ne _ _ _ _ hne]
      exact lookupKey_append_left _ _ _ _ (lookupKey_setKey_self _ _ _)
    · unfold fetchSeriesM
      rw [hri]
    · intro v
      simp only [RefHeap.write, RefHeap.read]
      exact lookupKey_setKey_self _ _ _

/-- C10 witness: the theorem applied to a one-slot heap per dictionary,
with the mask fetch over the concrete directory CFS; the copy returned by
fetch_masks lives at the fresh location, distinct from self.masks. -/
theorem c10_copy_vs_alias_w : HM0.nxt ≠ PO.masksLoc :=
  ((c10_copy_vs_alias "P" CFS ["adc"] ".nii.gz" none true false PO HM0 HI0 [] []
    (by decide) (by decide) (by decide) (by decide)).1.2.1)
